import Mathlib

/-!
Verification of the watermarking engine in `src/watermarker.py`.

The embedding follows the source function `add_watermark` (line references in
the doc comments point into `src/watermarker.py`) and the directory branch of
`run_watermarker`.  Python float arithmetic is modelled as exact rational and
real arithmetic; byte samples are rationals carrying values 0..255; the two
`while` loops of the TILE branch are modelled with explicit fuel, `none`
standing for fuel exhaustion (the source loop has not terminated within the
given number of iterations).  Operations performed by the external image
library (decoding, resampling, `paste`, `alpha_composite`) are modelled from
the specification, as marked on each such definition.
-/

namespace Watermarker

/-- One RGBA pixel (spec section 3: 4-channel samples, 8 bits per channel).
Samples are modelled as rationals; decoded images carry byte values 0..255. -/
structure Pixel where
  r : ℚ
  g : ℚ
  b : ℚ
  a : ℚ
deriving DecidableEq

/-- Spec section 3 RasterImage: width, height and a pixel lookup.  The lookup
is total on integer coordinates; only coordinates inside the bounds are ever
observed, which models clipping of off-canvas stamping for free. -/
structure Raster where
  width : ℕ
  height : ℕ
  pix : ℤ → ℤ → Pixel

/-- The fully transparent sample (0,0,0,0). -/
def transparent : Pixel := ⟨0, 0, 0, 0⟩

/-- Line 111, `Image.new("RGBA", original.size, (0,0,0,0))`: the overlay layer
starts fully transparent. -/
def blank (w h : ℕ) : Raster := ⟨w, h, fun _ _ => transparent⟩

/-- Modelled from the spec: the stamping rule of section 4.5 — paint the
overlay pixel using the mark sample alpha as blend weight (byte alpha
normalized by 255) and combine with whatever the overlay already holds.  The
`Image.paste(..., mask=...)` implementation itself is external library code,
absent from src/. -/
def blend (src dst : Pixel) : Pixel :=
  let w := src.a / 255
  ⟨src.r * w + dst.r * (1 - w), src.g * w + dst.g * (1 - w),
   src.b * w + dst.b * (1 - w), src.a * w + dst.a * (1 - w)⟩

/-- Lines 128 and 146, `watermark_layer.paste(watermark_img, pos, mask=watermark_img)`:
stamp `img` onto `base` with its top-left corner at
`pos`.  Negative offsets are accepted; pixels falling outside `base` are
simply never looked up (silent clipping). -/
def paste (base img : Raster) (pos : ℤ × ℤ) : Raster :=
  { base with pix := fun x y =>
      if pos.1 ≤ x ∧ x < pos.1 + img.width ∧ pos.2 ≤ y ∧ y < pos.2 + img.height then
        (blend (img.pix (x - pos.1) (y - pos.2)) (base.pix x y))
      else base.pix x y }

/-- Modelled from the spec: the LayerCompositor rule of section 4.5, per
channel: out = overlayColor·overlayAlpha + canvasColor·(1−overlayAlpha) and
outAlpha = overlayAlpha + canvasAlpha·(1−overlayAlpha), with alpha weights
normalized byte/255.  `Image.alpha_composite` is external library code. -/
def compositePixel (o c : Pixel) : Pixel :=
  let oa := o.a / 255
  ⟨o.r * oa + c.r * (1 - oa), o.g * oa + c.g * (1 - oa),
   o.b * oa + c.b * (1 - oa), o.a + c.a * (1 - oa)⟩

/-- Line 150, `Image.alpha_composite(original, watermark_layer)`. -/
def alphaComposite (canvas overlay : Raster) : Raster :=
  ⟨canvas.width, canvas.height,
   fun x y => compositePixel (overlay.pix x y) (canvas.pix x y)⟩

/-- Lines 80–91: the scale-factor computation and
`new_size = (int(Mw*s), int(Mh*s))`.  LINEAR: s = W·p/Mw.  AREA:
s = sqrt(H·W·p/(Mh·Mw)).  To keep the definition executable, the AREA floor
`int(M * sqrt q)` is written as `Nat.sqrt (M^2 * q).floor.toNat`; the theorem
for claim C1 proves this equal to `⌊M * Real.sqrt q⌋₊`.  `int()` truncates
toward zero, which on these non-negative values is the floor (`Rat.floor`,
with `toNat` bridging to ℕ; both agree with the mathematical floor). -/
def newSize (W H Mw Mh : ℕ) (p : ℚ) (ty : String) : ℕ × ℕ :=
  if ty = "LINEAR" then
    (((Mw : ℚ) * ((W : ℚ) * p / (Mw : ℚ))).floor.toNat,
     ((Mh : ℚ) * ((W : ℚ) * p / (Mw : ℚ))).floor.toNat)
  else if ty = "AREA" then
    (Nat.sqrt ((Mw : ℚ) ^ 2 * ((H : ℚ) * (W : ℚ) * p / ((Mh : ℚ) * (Mw : ℚ)))).floor.toNat,
     Nat.sqrt ((Mh : ℚ) ^ 2 * ((H : ℚ) * (W : ℚ) * p / ((Mh : ℚ) * (Mw : ℚ)))).floor.toNat)
  else
    (((Mw : ℚ) * 1).floor.toNat, ((Mh : ℚ) * 1).floor.toNat)

/-- Modelled from the spec: `watermark_img.resize(new_size, LANCZOS)`
(line 95).  Resampling is performed by the external image library and the spec
fixes only the resulting dimensions, so the sample lookup is kept. -/
def resize (img : Raster) (ns : ℕ × ℕ) : Raster := ⟨ns.1, ns.2, img.pix⟩

/-- Lines 94–98: resize only when both computed dimensions are positive,
otherwise keep the watermark at its original size (resize skipped). -/
def effectiveMark (img : Raster) (ns : ℕ × ℕ) : Raster :=
  if 0 < ns.1 ∧ 0 < ns.2 then resize img ns else img

/-- Lines 101–108: when opacity < 1.0 replace every alpha sample i by
`int(i * opacity)` (the floor, the samples being non-negative) and keep R,G,B;
otherwise the image is passed through untouched. -/
def applyOpacity (img : Raster) (o : ℚ) : Raster :=
  if o < 1 then
    { img with pix := fun x y =>
        let p := img.pix x y
        ⟨p.r, p.g, p.b, (((p.a * o).floor : ℤ) : ℚ)⟩ }
  else img

/-- Lines 134–143: SINGLE-mode placement.  The position argument is either a
named anchor (a string) or an explicit coordinate pair, exactly as in the
dynamically-typed source. -/
def positioner (width height wmW wmH : ℕ) (margin : ℤ)
    (position : String ⊕ (ℤ × ℤ)) : ℤ × ℤ :=
  let m : ℤ := if 0 ≤ margin then margin else 0
  match position with
  | Sum.inl s =>
      if s = "UPPER_LEFT" then (m, m)
      else if s = "UPPER_RIGHT" then ((width : ℤ) - wmW - m, m)
      else if s = "LOWER_LEFT" then (m, (height : ℤ) - wmH - m)
      else if s = "MIDDLE" then
        (Int.fdiv ((width : ℤ) - wmW) 2, Int.fdiv ((height : ℤ) - wmH) 2)
      else ((width : ℤ) - wmW - m, (height : ℤ) - wmH - m)
  | Sum.inr q => q

/-- Lines 116–117: `x_step = new_size[0] + tile_padding` and
`y_step = new_size[1] + tile_padding`.  The steps are taken from `new_size`
even when the resize was skipped because `new_size` was degenerate. -/
def tileSteps (ns : ℕ × ℕ) (tile_padding : ℤ) : ℤ × ℤ :=
  ((ns.1 : ℤ) + tile_padding, (ns.2 : ℤ) + tile_padding)

/-- Inner while loop of the TILE branch, lines 123–130: starting from `x` and
column counter `col`, emit the x-offsets of the cells with even row+column
parity, advancing by `xstep`, while `x < width`.  Fueled; `none` means the
loop has not terminated within `fuel` iterations. -/
def tileRowLoop : ℕ → ℤ → ℤ → ℕ → ℤ → ℕ → Option (List ℤ)
  | 0, _, _, _, _, _ => none
  | fuel + 1, width, xstep, row, x, col =>
    if x < width then
      match tileRowLoop fuel width xstep row (x + xstep) (col + 1) with
      | none => none
      | some rest => some (if (row + col) % 2 = 0 then x :: rest else rest)
    else some []

/-- Outer while loop of the TILE branch, lines 119–132: iterate rows while
`y < height`, pairing each row of x-offsets with its y. -/
def tileLoop : ℕ → ℤ → ℤ → ℤ → ℤ → ℤ → ℕ → Option (List (ℤ × ℤ))
  | 0, _, _, _, _, _, _ => none
  | fuel + 1, width, height, xstep, ystep, y, row =>
    if y < height then
      match tileRowLoop (fuel + 1) width xstep row 0 0 with
      | none => none
      | some xs =>
        match tileLoop fuel width height xstep ystep (y + ystep) (row + 1) with
        | none => none
        | some rest => some (xs.map (fun x => (x, y)) ++ rest)
    else some []

/-- The sequence of stamp offsets produced by the TILE branch. -/
def tileOffsets (fuel : ℕ) (width height xstep ystep : ℤ) : Option (List (ℤ × ℤ)) :=
  tileLoop fuel width height xstep ystep 0 0

/-- Executable membership in the emitted tile offsets (false on fuel
exhaustion). -/
def memTile (fuel : ℕ) (width height xstep ystep : ℤ) (q : ℤ × ℤ) : Bool :=
  ((tileOffsets fuel width height xstep ystep).getD []).contains q

/-- The argument record of `add_watermark` (line 11).  `position` is a string
anchor or an explicit pair, `mode` and `type_of_rescaling` arbitrary strings,
exactly as in the dynamically-typed source. -/
structure Config where
  input_path : String
  watermark_path : String
  output_dir : String
  margin : ℤ
  position : String ⊕ (ℤ × ℤ)
  opacity : ℚ
  proportion : ℚ
  type_of_rescaling : String
  mode : String
  tile_padding : ℤ

/-- Line 37: `path.lower().endswith((".png", ".jpg", ".jpeg"))`.  Implemented
over the character list (lowercasing each character, then a suffix test),
which is the observable behavior of the source check and evaluates by
`decide`. -/
def isImagePath (s : String) : Bool :=
  (".png".data.isSuffixOf (s.data.map Char.toLower)) ||
  (".jpg".data.isSuffixOf (s.data.map Char.toLower)) ||
  (".jpeg".data.isSuffixOf (s.data.map Char.toLower))

/-- Line 44: the recognized named anchors. -/
def positionNames : List String :=
  ["UPPER_LEFT", "UPPER_RIGHT", "LOWER_LEFT", "LOWER_RIGHT", "MIDDLE"]

/-- Lines 44–49: a string position must be a recognized anchor; an explicit
pair must have non-negative coordinates. -/
def positionCheck (position : String ⊕ (ℤ × ℤ)) : Option String :=
  match position with
  | Sum.inl s =>
      if s ∈ positionNames then none
      else some "Position must be a tuple of (x, y) coordinates"
  | Sum.inr q =>
      if q.1 < 0 ∨ q.2 < 0 then some "Position coordinates must be non-negative"
      else none

/-- Lines 26–61: configuration validation, in source order, returning the
message of the first `ValueError` raised, or `none` when all checks pass.
All of it runs before any `Image.open` call. -/
def validate (cfg : Config) : Option String :=
  if cfg.proportion ≤ 0 then some "Proportion must be greater than 0"
  else if 1 < cfg.proportion then some "Proportion must be less than or equal to 1"
  else if cfg.input_path.data.isEmpty || cfg.watermark_path.data.isEmpty ||
      cfg.output_dir.data.isEmpty then
    some "Image paths cannot be empty"
  else if !(isImagePath cfg.input_path && isImagePath cfg.watermark_path) then
    some "Image paths must end with .png, .jpg, or .jpeg"
  else if cfg.margin < 0 then some "Margin must be a non-negative integer"
  else
    match positionCheck cfg.position with
    | some e => some e
    | none =>
      if cfg.type_of_rescaling ∉ ["LINEAR", "AREA"] then
        some "Type of rescaling must be LINEAR or AREA"
      else if cfg.mode ∉ ["SINGLE", "TILE"] then some "Mode must be SINGLE or TILE"
      else if ¬(0 ≤ cfg.opacity ∧ cfg.opacity ≤ 1) then
        some "Opacity must be a float between 0.0 and 1.0"
      else if cfg.tile_padding < 0 then some "Tile padding must be a non-negative integer"
      else none

/-- The observable result of one `add_watermark` call.  `configError` is a
`ValueError` raised by validation (lines 26–61, propagated to the caller);
`caught` is any exception raised inside the try block and swallowed into a
console message (lines 160–163); `hang` is fuel exhaustion of the TILE loops
(the source loop has not terminated); `ok` carries the composited image. -/
inductive AddOutcome where
  | configError (msg : String)
  | caught (msg : String)
  | hang
  | ok (out : Raster)

/-- Whether the operation produced an output image. -/
def AddOutcome.isOk : AddOutcome → Bool
  | .ok _ => true
  | _ => false

/-- Whether the `add_watermark` call returns normally to its caller.
A `configError` is a ValueError raised by lines 26–61, outside the try block,
so it propagates out of the call; `hang` never returns at all; `caught` and
`ok` return normally (the try/except of lines 160–163 swallowed any
exception raised inside the try). -/
def AddOutcome.returnsNormally : AddOutcome → Bool
  | .configError _ => false
  | .hang => false
  | _ => true

/-- Result of one `add_watermark` call together with its externally observable
file effects: which paths were handed to the decoder, and the output path
written (if any). -/
structure AddResult where
  outcome : AddOutcome
  opened : List String
  written : Option String

/-- The function `add_watermark` (lines 11–163).  `decode` models `Image.open` plus RGBA
conversion by the external codec (`none` = FileNotFoundError / decode
failure); `fuel` bounds the TILE while loops.  Saving (lines 153–158) is
modelled by recording the output path; the JPEG RGB conversion concerns only
the on-disk encoding of the same composited image. -/
def add_watermark (cfg : Config) (decode : String → Option Raster) (fuel : ℕ) : AddResult :=
  match validate cfg with
  | some e => ⟨.configError e, [], none⟩
  | none =>
    match decode cfg.input_path with
    | none => ⟨.caught "Error opening images", [cfg.input_path], none⟩
    | some original =>
      match decode cfg.watermark_path with
      | none => ⟨.caught "Error opening images", [cfg.input_path, cfg.watermark_path], none⟩
      | some mark =>
        if mark.width = 0 ∨ mark.height = 0 then
          ⟨.caught "Watermark image dimensions cannot be zero.",
           [cfg.input_path, cfg.watermark_path], none⟩
        else
          let ns := newSize original.width original.height mark.width mark.height
                      cfg.proportion cfg.type_of_rescaling
          let wm := applyOpacity (effectiveMark mark ns) cfg.opacity
          let layer0 := blank original.width original.height
          if cfg.mode = "TILE" then
            match tileOffsets fuel (original.width : ℤ) (original.height : ℤ)
                    (tileSteps ns cfg.tile_padding).1 (tileSteps ns cfg.tile_padding).2 with
            | none => ⟨.hang, [cfg.input_path, cfg.watermark_path], none⟩
            | some offs =>
              ⟨.ok (alphaComposite original (offs.foldl (fun acc q => paste acc wm q) layer0)),
               [cfg.input_path, cfg.watermark_path], some cfg.output_dir⟩
          else
            ⟨.ok (alphaComposite original
                    (paste layer0 wm
                      (positioner original.width original.height wm.width wm.height
                        cfg.margin cfg.position))),
             [cfg.input_path, cfg.watermark_path], some cfg.output_dir⟩

/-- Line 205: `f"{image_file.stem}_watermarked.png"` joined to the output
directory.  Stem extraction is delegated to the external path library; the
listed file name stands in for its stem. -/
def outputFilename (output_dir stem : String) : String :=
  output_dir ++ "/" ++ stem ++ "_watermarked.png"

/-- Batch loop of lines 203–219 followed by line 246: the listed files are
processed strictly in order by `add_watermark`.  A call that does not return
normally stops the batch there — a raised ValueError (`configError`)
propagates out of `add_watermark` and aborts the whole invocation before the
final message, and a diverging TILE loop (`hang`) never lets the program
proceed — while `caught` and `ok` outcomes continue with the next file.  The
second component is `some` of the fixed final console message of line 246
exactly when the loop ran to completion. -/
def batchLoop (mkCfg : String → Config) (decode : String → Option Raster) (fuel : ℕ) :
    List String → List AddResult × Option String
  | [] => ([], some "Process successfully finished!")
  | f :: fs =>
    let r := add_watermark (mkCfg f) decode fuel
    match r.outcome with
    | AddOutcome.configError _ => ([r], none)
    | AddOutcome.hang => ([r], none)
    | _ =>
      let rest := batchLoop mkCfg decode fuel fs
      (r :: rest.1, rest.2)

/-- Directory branch of `run_watermarker` (lines 186–219 and 246).
`watermark_is_file` models the `watermark_path.is_file()` filesystem check;
the outer `none` models the typer.Abort / typer.Exit early exits.  Otherwise
the extension-filtered listing is handed to `batchLoop`; the resulting
message component is `some "Process successfully finished!"` exactly when
every call to `add_watermark` returned normally (line 246 reached). -/
def run_watermarker_dir (watermark_is_file : Bool) (files : List String)
    (watermark_path output_dir mode position : String) (proportion : ℚ)
    (margin tile_padding : ℤ) (rescaling : String) (opacity : ℚ)
    (decode : String → Option Raster) (fuel : ℕ) : Option (List AddResult × Option String) :=
  if !watermark_is_file then none
  else
    let image_files := files.filter (fun f => isImagePath f)
    if image_files.isEmpty then none
    else
      some (batchLoop (fun f =>
        ⟨f, watermark_path, outputFilename output_dir f, margin, Sum.inl position,
         opacity, proportion, rescaling, mode, tile_padding⟩) decode fuel image_files)

/-- Number of operations of a batch that produced no output image. -/
def countFailures (rs : List AddResult) : ℕ :=
  (rs.filter (fun r => !r.outcome.isOk)).length

/-- Number of operations of a batch that produced an output image. -/
def countSuccesses (rs : List AddResult) : ℕ :=
  (rs.filter (fun r => r.outcome.isOk)).length

/-- A concrete 400×400 opaque canvas used as decoded test input. -/
def testCanvas : Raster := ⟨400, 400, fun _ _ => ⟨10, 20, 30, 255⟩⟩

/-- A concrete 100×100 mark used as decoded test input. -/
def testMark : Raster := ⟨100, 100, fun _ _ => ⟨200, 100, 50, 255⟩⟩

/-- A concrete 5×5 canvas used as decoded test input. -/
def tinyCanvas : Raster := ⟨5, 5, fun _ _ => ⟨1, 2, 3, 255⟩⟩

/-- A concrete fully opaque 400×400 mark, the same size as `testCanvas`. -/
def opaqueMark : Raster := ⟨400, 400, fun _ _ => ⟨200, 100, 50, 255⟩⟩

/-- A decode oracle for the test fixtures. -/
def testDecode : String → Option Raster :=
  fun s =>
    if s = "in.png" then some testCanvas
    else if s = "tiny.png" then some tinyCanvas
    else if s = "mark.png" then some testMark
    else none

/-- A decode oracle failing on the canvas file only. -/
def testDecodeMissing : String → Option Raster :=
  fun s => if s = "mark.png" then some testMark else none

/-- A configuration whose computed new size is degenerate ((0,0)) in TILE
mode with tile_padding 0: canvas 5×5, mark 100×100, proportion 1/10, LINEAR
gives new_size = (int(0.5), int(0.5)) = (0,0) and x_step = y_step = 0. -/
def degenerateTileConfig : Config :=
  ⟨"tiny.png", "mark.png", "out/tiny_watermarked.png", 20, Sum.inl "LOWER_RIGHT",
   1 / 2, 1 / 10, "LINEAR", "TILE", 0⟩

/-- A SINGLE-mode configuration whose computed new size is degenerate:
canvas 400×400, mark 100×100, proportion 1/1000 gives new_size = (0,0). -/
def degenerateSingleConfig : Config :=
  ⟨"in.png", "mark.png", "out/in_watermarked.png", 20, Sum.inl "LOWER_RIGHT",
   1 / 2, 1 / 1000, "LINEAR", "SINGLE", 10⟩

/-- An invalid configuration: proportion 2 lies outside (0,1]. -/
def badConfig : Config :=
  ⟨"in.png", "mark.png", "out/in_watermarked.png", 20, Sum.inl "LOWER_RIGHT",
   1 / 2, 2, "LINEAR", "SINGLE", 10⟩

/-! ### Helper lemmas -/

theorem intFloor_eq_ratFloor (q : ℚ) : ⌊q⌋ = q.floor := by
  rw [Rat.floor_def, Rat.floor_def']

theorem natFloor_eq_ratFloor_toNat (q : ℚ) : ⌊q⌋₊ = q.floor.toNat := by
  rw [← intFloor_eq_ratFloor]
  rcases le_or_lt 0 q with h | h
  · rw [← Int.natCast_floor_eq_floor h, Int.toNat_natCast]
  · rw [Nat.floor_of_nonpos h.le]
    have h1 : ⌊q⌋ ≤ 0 := Int.floor_nonpos h.le
    omega

theorem natFloor_ratCast (q : ℚ) : ⌊(q : ℝ)⌋₊ = ⌊q⌋₊ := by
  rcases le_or_lt 0 q with h | h
  · have h0 : (0 : ℝ) ≤ (q : ℝ) := by exact_mod_cast h
    have h1 := Int.natCast_floor_eq_floor h0
    have h2 := Int.natCast_floor_eq_floor h
    rw [Rat.floor_cast] at h1
    exact Int.ofNat_inj.mp (h1.trans h2.symm)
  · rw [Nat.floor_of_nonpos h.le, Nat.floor_of_nonpos (by exact_mod_cast h.le)]

theorem natFloor_real_sqrt (x : ℝ) (hx : 0 ≤ x) : ⌊Real.sqrt x⌋₊ = Nat.sqrt ⌊x⌋₊ := by
  rw [Nat.floor_eq_iff (Real.sqrt_nonneg x)]
  constructor
  · rw [Real.le_sqrt (by positivity) hx]
    calc ((Nat.sqrt ⌊x⌋₊ : ℝ)) ^ 2 ≤ (⌊x⌋₊ : ℝ) := by exact_mod_cast Nat.sqrt_le' ⌊x⌋₊
    _ ≤ x := Nat.floor_le hx
  · rw [Real.sqrt_lt' (by positivity)]
    calc x < (⌊x⌋₊ : ℝ) + 1 := Nat.lt_floor_add_one x
    _ ≤ ((Nat.sqrt ⌊x⌋₊ : ℝ) + 1) ^ 2 := by exact_mod_cast Nat.succ_le_succ_sqrt' ⌊x⌋₊

theorem natFloor_mul_real_sqrt (M : ℕ) (q : ℚ) :
    ⌊(M : ℝ) * Real.sqrt (q : ℝ)⌋₊ = Nat.sqrt ⌊(M : ℚ) ^ 2 * q⌋₊ := by
  have h1 : (M : ℝ) * Real.sqrt (q : ℝ) = Real.sqrt ((M : ℝ) ^ 2 * (q : ℝ)) := by
    rw [Real.sqrt_mul (by positivity), Real.sqrt_sq (by positivity)]
  rcases le_or_lt 0 q with hq | hq
  · rw [h1, natFloor_real_sqrt _ (by positivity)]
    congr 1
    rw [← natFloor_ratCast]
    congr 1
    push_cast
    ring
  · have hq' : (q : ℝ) < 0 := by exact_mod_cast hq
    rcases Nat.eq_zero_or_pos M with rfl | hM
    · simp
    · have hneg : (M : ℝ) ^ 2 * (q : ℝ) < 0 := by
        have : (0 : ℝ) < (M : ℝ) ^ 2 := by positivity
        nlinarith
      have hneg' : ((M : ℚ) ^ 2 * q) < 0 := by
        have : (0 : ℚ) < (M : ℚ) ^ 2 := by positivity
        nlinarith
      rw [h1, Real.sqrt_eq_zero_of_nonpos hneg.le]
      rw [Nat.floor_of_nonpos hneg'.le]
      simp

theorem applyOpacity_width (img : Raster) (o : ℚ) : (applyOpacity img o).width = img.width := by
  unfold applyOpacity
  split <;> rfl

theorem applyOpacity_height (img : Raster) (o : ℚ) : (applyOpacity img o).height = img.height := by
  unfold applyOpacity
  split <;> rfl

theorem tileRowLoop_spec (width xstep : ℤ) (hx : 0 < xstep) :
    ∀ (fuel : ℕ) (x : ℤ) (col row : ℕ), width - x < (fuel : ℤ) → 0 < fuel →
      ∃ L, tileRowLoop fuel width xstep row x col = some L ∧
        ∀ z : ℤ, z ∈ L ↔ ∃ k : ℕ, z = x + k * xstep ∧ z < width ∧ (row + col + k) % 2 = 0 := by
  intro fuel
  induction fuel with
  | zero => intro x col row h1 h2; omega
  | succ n ih =>
    intro x col row h1 _
    by_cases hxw : x < width
    · have hn1 : width - (x + xstep) < (n : ℤ) := by push_cast at h1 ⊢; omega
      have hn2 : 0 < n := by
        have : (1 : ℤ) ≤ width - x := by omega
        have : width - x ≤ (n : ℤ) := by push_cast at h1; omega
        omega
      obtain ⟨L, hL, hmem⟩ := ih (x + xstep) (col + 1) row hn1 hn2
      refine ⟨if (row + col) % 2 = 0 then x :: L else L, by simp [tileRowLoop, hxw, hL], ?_⟩
      intro z
      by_cases hpar : (row + col) % 2 = 0
      · simp only [if_pos hpar, List.mem_cons, hmem]
        constructor
        · rintro (rfl | ⟨k, rfl, hzw, hk⟩)
          · exact ⟨0, by push_cast; ring, hxw, by omega⟩
          · exact ⟨k + 1, by push_cast; ring, hzw, by omega⟩
        · rintro ⟨k, rfl, hzw, hk⟩
          cases k with
          | zero => left; push_cast; ring
          | succ k => right; exact ⟨k, by push_cast; ring, hzw, by omega⟩
      · simp only [if_neg hpar, hmem]
        constructor
        · rintro ⟨k, rfl, hzw, hk⟩
          exact ⟨k + 1, by push_cast; ring, hzw, by omega⟩
        · rintro ⟨k, rfl, hzw, hk⟩
          cases k with
          | zero =>
            exfalso
            apply hpar
            omega
          | succ k => exact ⟨k, by push_cast; ring, hzw, by omega⟩
    · refine ⟨[], by simp [tileRowLoop, hxw], ?_⟩
      intro z
      simp only [List.not_mem_nil, false_iff]
      rintro ⟨k, rfl, hzw, -⟩
      have hk0 : (0 : ℤ) ≤ (k : ℤ) * xstep := by positivity
      omega

theorem tileLoop_spec (width height xstep ystep : ℤ) (hx : 0 < xstep) (hy : 0 < ystep)
    (hw0 : 0 ≤ width) :
    ∀ (fuel : ℕ) (y : ℤ) (row : ℕ), height - y + width < (fuel : ℤ) → 0 < fuel →
      ∃ L, tileLoop fuel width height xstep ystep y row = some L ∧
        ∀ a b : ℤ, (a, b) ∈ L ↔ ∃ r k : ℕ, b = y + r * ystep ∧ b < height ∧
          a = k * xstep ∧ a < width ∧ (row + r + k) % 2 = 0 := by
  intro fuel
  induction fuel with
  | zero => intro y row h1 h2; omega
  | succ n ih =>
    intro y row h1 _
    by_cases hyh : y < height
    · have hw1 : width - 0 < ((n + 1 : ℕ) : ℤ) := by push_cast at h1 ⊢; omega
      obtain ⟨xs, hxs, hxmem⟩ :=
        tileRowLoop_spec width xstep hx (n + 1) 0 0 row hw1 (Nat.succ_pos n)
      have hn1 : height - (y + ystep) + width < (n : ℤ) := by push_cast at h1 ⊢; omega
      have hn2 : 0 < n := by
        have : (1 : ℤ) ≤ height - y := by omega
        have : height - y + width ≤ (n : ℤ) := by push_cast at h1; omega
        omega
      obtain ⟨rest, hrest, hrmem⟩ := ih (y + ystep) (row + 1) hn1 hn2
      refine ⟨xs.map (fun x => (x, y)) ++ rest, by simp [tileLoop, hyh, hxs, hrest], ?_⟩
      intro a b
      simp only [List.mem_append, List.mem_map, hrmem]
      constructor
      · rintro (⟨x, hxin, heq⟩ | ⟨r, k, rfl, hbh, rfl, haw, hpar⟩)
        · obtain ⟨rfl, rfl⟩ : x = a ∧ y = b := by
            constructor <;> [exact congrArg Prod.fst heq; exact congrArg Prod.snd heq]
          obtain ⟨k, rfl, haw, hpar⟩ := (hxmem x).mp hxin
          refine ⟨0, k, by push_cast; ring, hyh, by ring, haw, by omega⟩
        · exact ⟨r + 1, k, by push_cast; ring, hbh, rfl, haw, by omega⟩
      · rintro ⟨r, k, rfl, hbh, rfl, haw, hpar⟩
        cases r with
        | zero =>
          left
          refine ⟨(k : ℤ) * xstep, (hxmem _).mpr ⟨k, by ring, haw, by omega⟩, ?_⟩
          have hb : y + ((0 : ℕ) : ℤ) * ystep = y := by push_cast; ring
          rw [hb]
        | succ r =>
          right
          exact ⟨r, k, by push_cast; ring, hbh, rfl, haw, by omega⟩
    · refine ⟨[], by simp [tileLoop, hyh], ?_⟩
      intro a b
      simp only [List.not_mem_nil, false_iff]
      rintro ⟨r, k, rfl, hbh, -⟩
      have hr0 : (0 : ℤ) ≤ (r : ℤ) * ystep := by positivity
      omega

theorem tileRowLoop_zero_step_none (width : ℤ) (hw : 0 < width) (row : ℕ) :
    ∀ (fuel : ℕ) (col : ℕ), tileRowLoop fuel width 0 row 0 col = none := by
  intro fuel
  induction fuel with
  | zero => intro col; rfl
  | succ n ih =>
    intro col
    have h := ih (col + 1)
    simp [tileRowLoop, hw]
    rw [h]

theorem tileLoop_zero_step_none (width height : ℤ) (hw : 0 < width) (hh : 0 < height) :
    ∀ fuel : ℕ, tileLoop fuel width height 0 0 0 0 = none := by
  intro fuel
  cases fuel with
  | zero => rfl
  | succ n =>
    simp [tileLoop, hh]
    rw [tileRowLoop_zero_step_none width hw 0 (n + 1) 0]

set_option maxHeartbeats 1000000 in
theorem validate_none (cfg : Config) (h : validate cfg = none) :
    0 < cfg.proportion ∧ cfg.proportion ≤ 1 ∧
    isImagePath cfg.input_path = true ∧ isImagePath cfg.watermark_path = true ∧
    0 ≤ cfg.margin ∧ positionCheck cfg.position = none ∧
    cfg.type_of_rescaling ∈ ["LINEAR", "AREA"] ∧ cfg.mode ∈ ["SINGLE", "TILE"] ∧
    0 ≤ cfg.opacity ∧ cfg.opacity ≤ 1 ∧ 0 ≤ cfg.tile_padding := by
  rcases hpc : positionCheck cfg.position with _ | e
  · unfold validate at h
    rw [hpc] at h
    split_ifs at h with h1 h2 h3 h4 h5 h6 h7 h8 h9
    have h4' : isImagePath cfg.input_path = true ∧ isImagePath cfg.watermark_path = true := by
      simpa using h4
    exact ⟨not_le.mp h1, not_lt.mp h2, h4'.1, h4'.2, not_lt.mp h5, rfl,
      h6, h7, h8.1, h8.2, not_lt.mp h9⟩
  · unfold validate at h
    rw [hpc] at h
    split_ifs at h

theorem add_watermark_tile (cfg : Config) (decode : String → Option Raster) (fuel : ℕ)
    (original mark : Raster)
    (h1 : validate cfg = none) (h2 : decode cfg.input_path = some original)
    (h3 : decode cfg.watermark_path = some mark)
    (h4 : ¬(mark.width = 0 ∨ mark.height = 0)) (h5 : cfg.mode = "TILE") :
    add_watermark cfg decode fuel =
      (match tileOffsets fuel (original.width : ℤ) (original.height : ℤ)
          (tileSteps (newSize original.width original.height mark.width mark.height
            cfg.proportion cfg.type_of_rescaling) cfg.tile_padding).1
          (tileSteps (newSize original.width original.height mark.width mark.height
            cfg.proportion cfg.type_of_rescaling) cfg.tile_padding).2 with
       | none => ⟨AddOutcome.hang, [cfg.input_path, cfg.watermark_path], none⟩
       | some offs =>
          ⟨AddOutcome.ok (alphaComposite original (offs.foldl
              (fun acc q => paste acc
                (applyOpacity (effectiveMark mark (newSize original.width original.height
                  mark.width mark.height cfg.proportion cfg.type_of_rescaling)) cfg.opacity) q)
              (blank original.width original.height))),
           [cfg.input_path, cfg.watermark_path], some cfg.output_dir⟩) := by
  unfold add_watermark
  rw [h1, h2, h3]
  simp only [if_neg h4, if_pos h5]

theorem add_watermark_single (cfg : Config) (decode : String → Option Raster) (fuel : ℕ)
    (original mark : Raster)
    (h1 : validate cfg = none) (h2 : decode cfg.input_path = some original)
    (h3 : decode cfg.watermark_path = some mark)
    (h4 : ¬(mark.width = 0 ∨ mark.height = 0)) (h5 : cfg.mode ≠ "TILE") :
    add_watermark cfg decode fuel =
      ⟨AddOutcome.ok (alphaComposite original
          (paste (blank original.width original.height)
            (applyOpacity (effectiveMark mark (newSize original.width original.height
              mark.width mark.height cfg.proportion cfg.type_of_rescaling)) cfg.opacity)
            (positioner original.width original.height
              (applyOpacity (effectiveMark mark (newSize original.width original.height
                mark.width mark.height cfg.proportion cfg.type_of_rescaling)) cfg.opacity).width
              (applyOpacity (effectiveMark mark (newSize original.width original.height
                mark.width mark.height cfg.proportion cfg.type_of_rescaling)) cfg.opacity).height
              cfg.margin cfg.position))),
       [cfg.input_path, cfg.watermark_path], some cfg.output_dir⟩ := by
  unfold add_watermark
  rw [h1, h2, h3]
  simp only [if_neg h4, if_neg h5]

theorem ratFloor_toNat_eval (q : ℚ) (n : ℕ) (h : ⌊q⌋ = (n : ℤ)) : q.floor.toNat = n := by
  rw [← intFloor_eq_ratFloor, h, Int.toNat_natCast]

theorem add_watermark_input_decode_error (cfg : Config) (decode : String → Option Raster)
    (fuel : ℕ) (h1 : validate cfg = none) (h2 : decode cfg.input_path = none) :
    add_watermark cfg decode fuel =
      ⟨AddOutcome.caught "Error opening images", [cfg.input_path], none⟩ := by
  unfold add_watermark
  rw [h1, h2]

theorem batchLoop_complete (mkCfg : String → Config) (decode : String → Option Raster)
    (fuel : ℕ) : ∀ l : List String,
    (∀ f ∈ l, (add_watermark (mkCfg f) decode fuel).outcome.returnsNormally = true) →
    batchLoop mkCfg decode fuel l =
      (l.map (fun f => add_watermark (mkCfg f) decode fuel),
       some "Process successfully finished!") := by
  intro l
  induction l with
  | nil => intro _; rfl
  | cons f fs ih =>
    intro h
    have hf := h f (List.mem_cons_self f fs)
    have hrest := ih (fun g hg => h g (List.mem_cons_of_mem f hg))
    simp only [batchLoop, List.map_cons]
    rcases ho : (add_watermark (mkCfg f) decode fuel).outcome with msg | msg | _ | out
    · rw [ho] at hf
      exact absurd hf (by simp [AddOutcome.returnsNormally])
    · rw [hrest]
    · rw [ho] at hf
      exact absurd hf (by simp [AddOutcome.returnsNormally])
    · rw [hrest]

theorem newSize_deg5 : newSize 5 5 100 100 (1 / 10) "LINEAR" = (0, 0) := by
  unfold newSize
  rw [if_pos rfl]
  simp only [Prod.mk.injEq]
  constructor <;> (apply ratFloor_toNat_eval; push_cast; norm_num)

theorem newSize_deg400 : newSize 400 400 100 100 (1 / 1000) "LINEAR" = (0, 0) := by
  unfold newSize
  rw [if_pos rfl]
  simp only [Prod.mk.injEq]
  constructor <;> (apply ratFloor_toNat_eval; push_cast; norm_num)

theorem validate_none_of (cfg : Config)
    (h1 : ¬cfg.proportion ≤ 0) (h2 : ¬1 < cfg.proportion)
    (h3 : (cfg.input_path.data.isEmpty || cfg.watermark_path.data.isEmpty ||
      cfg.output_dir.data.isEmpty) = false)
    (h4 : (isImagePath cfg.input_path && isImagePath cfg.watermark_path) = true)
    (h5 : ¬cfg.margin < 0) (h6 : positionCheck cfg.position = none)
    (h7 : cfg.type_of_rescaling ∈ ["LINEAR", "AREA"]) (h8 : cfg.mode ∈ ["SINGLE", "TILE"])
    (h9 : 0 ≤ cfg.opacity ∧ cfg.opacity ≤ 1) (h10 : ¬cfg.tile_padding < 0) :
    validate cfg = none := by
  unfold validate
  rw [if_neg h1, if_neg h2, if_neg (by simp [h3]), if_neg (by simp [h4]), if_neg h5, h6]
  rw [if_neg (by simp [h7]), if_neg (by simp [h8]), if_neg (by simp [h9]), if_neg h10]

/-! ### Claims -/

/-- C1: for every canvas size W×H, mark size Mw×Mh (both positive) and
proportion p in (0,1], the scale factor is s = W·p/Mw under LINEAR rescaling
and s = sqrt(H·W·p/(Mh·Mw)) under AREA rescaling, both positive, and the
resized mark dimensions computed by the code are floor(Mw·s) × floor(Mh·s). -/
theorem C1_scale_and_new_size (W H Mw Mh : ℕ) (p : ℚ)
    (hW : 0 < W) (hH : 0 < H) (hMw : 0 < Mw) (hMh : 0 < Mh) (hp : 0 < p) (hp1 : p ≤ 1) :
    0 < (W : ℝ) * (p : ℝ) / (Mw : ℝ) ∧
    0 < Real.sqrt ((H : ℝ) * (W : ℝ) * (p : ℝ) / ((Mh : ℝ) * (Mw : ℝ))) ∧
    newSize W H Mw Mh p "LINEAR" =
      (⌊(Mw : ℝ) * ((W : ℝ) * (p : ℝ) / (Mw : ℝ))⌋₊,
       ⌊(Mh : ℝ) * ((W : ℝ) * (p : ℝ) / (Mw : ℝ))⌋₊) ∧
    newSize W H Mw Mh p "AREA" =
      (⌊(Mw : ℝ) * Real.sqrt ((H : ℝ) * (W : ℝ) * (p : ℝ) / ((Mh : ℝ) * (Mw : ℝ)))⌋₊,
       ⌊(Mh : ℝ) * Real.sqrt ((H : ℝ) * (W : ℝ) * (p : ℝ) / ((Mh : ℝ) * (Mw : ℝ)))⌋₊) := by
  have hp' : (0 : ℝ) < (p : ℝ) := by exact_mod_cast hp
  have hW' : (0 : ℝ) < (W : ℝ) := by exact_mod_cast hW
  have hH' : (0 : ℝ) < (H : ℝ) := by exact_mod_cast hH
  have hMw' : (0 : ℝ) < (Mw : ℝ) := by exact_mod_cast hMw
  have hMh' : (0 : ℝ) < (Mh : ℝ) := by exact_mod_cast hMh
  refine ⟨by positivity, Real.sqrt_pos.mpr (by positivity), ?_, ?_⟩
  · unfold newSize
    rw [if_pos rfl]
    have e1 : ∀ M : ℕ, ((M : ℚ) * ((W : ℚ) * p / (Mw : ℚ))).floor.toNat
        = ⌊(M : ℝ) * ((W : ℝ) * (p : ℝ) / (Mw : ℝ))⌋₊ := by
      intro M
      rw [← natFloor_eq_ratFloor_toNat, ← natFloor_ratCast]
      congr 1
      push_cast
      ring
    rw [e1 Mw, e1 Mh]
  · unfold newSize
    rw [if_neg (by decide), if_pos rfl]
    have e2 : ∀ M : ℕ,
        Nat.sqrt ((M : ℚ) ^ 2 * ((H : ℚ) * (W : ℚ) * p / ((Mh : ℚ) * (Mw : ℚ)))).floor.toNat
        = ⌊(M : ℝ) * Real.sqrt ((H : ℝ) * (W : ℝ) * (p : ℝ) / ((Mh : ℝ) * (Mw : ℝ)))⌋₊ := by
      intro M
      rw [← natFloor_eq_ratFloor_toNat,
        ← natFloor_mul_real_sqrt M ((H : ℚ) * (W : ℚ) * p / ((Mh : ℚ) * (Mw : ℚ)))]
      congr 2
      push_cast
      ring
    rw [e2 Mw, e2 Mh]

/-- Witness for C1 at the spec example: canvas 1000×500, mark 200×100,
proportion 1/10, LINEAR; the computed size is 100×50 and the scale factor is
positive. -/
theorem C1_scale_and_new_size_witness :
    newSize 1000 500 200 100 (1 / 10) "LINEAR" = (100, 50) ∧
    0 < ((1000 : ℕ) : ℝ) * (((1 : ℚ) / 10 : ℚ) : ℝ) / ((200 : ℕ) : ℝ) := by
  constructor
  · unfold newSize
    rw [if_pos rfl]
    simp only [Prod.mk.injEq]
    constructor
    · apply ratFloor_toNat_eval
      push_cast
      norm_num
    · apply ratFloor_toNat_eval
      push_cast
      norm_num
  · exact (C1_scale_and_new_size 1000 500 200 100 (1 / 10) (by norm_num) (by norm_num)
      (by norm_num) (by norm_num) (by norm_num) (by norm_num)).1

/-- C5: for every mark and opacity o in [0,1] the AlphaModulator replaces
every alpha sample a by floor(a·o), leaves the R,G,B channels and the
dimensions unchanged, is a byte-identical no-op at o = 1.0, and zeroes every
alpha sample at o = 0.0. -/
theorem C5_alpha_modulator (img : Raster) (o : ℚ) (h0 : 0 ≤ o) (h1 : o ≤ 1)
    (hbyte : ∀ x y : ℤ, ∃ n : ℕ, (img.pix x y).a = (n : ℚ)) :
    (applyOpacity img o).width = img.width ∧ (applyOpacity img o).height = img.height ∧
    (∀ x y : ℤ,
      ((applyOpacity img o).pix x y).r = (img.pix x y).r ∧
      ((applyOpacity img o).pix x y).g = (img.pix x y).g ∧
      ((applyOpacity img o).pix x y).b = (img.pix x y).b ∧
      ((applyOpacity img o).pix x y).a = ((⌊(img.pix x y).a * o⌋ : ℤ) : ℚ)) ∧
    (o = 1 → applyOpacity img o = img) ∧
    (o = 0 → ∀ x y : ℤ, ((applyOpacity img o).pix x y).a = 0) := by
  by_cases ho : o < 1
  · unfold applyOpacity
    rw [if_pos ho]
    refine ⟨rfl, rfl, ?_, ?_, ?_⟩
    · intro x y
      refine ⟨rfl, rfl, rfl, ?_⟩
      show ((((img.pix x y).a * o).floor : ℤ) : ℚ) = ((⌊(img.pix x y).a * o⌋ : ℤ) : ℚ)
      rw [intFloor_eq_ratFloor]
    · intro h
      exact absurd (h ▸ ho) (lt_irrefl 1)
    · intro h x y
      subst h
      show ((((img.pix x y).a * 0).floor : ℤ) : ℚ) = 0
      rw [mul_zero, ← intFloor_eq_ratFloor, Int.floor_zero]
      rfl
  · have ho1 : o = 1 := le_antisymm h1 (not_lt.mp ho)
    unfold applyOpacity
    rw [if_neg ho]
    refine ⟨rfl, rfl, ?_, fun _ => rfl, ?_⟩
    · intro x y
      refine ⟨rfl, rfl, rfl, ?_⟩
      obtain ⟨n, hn⟩ := hbyte x y
      rw [hn, ho1, mul_one, Int.floor_natCast]
      push_cast
      rfl
    · intro h
      rw [ho1] at h
      exact absurd h (by norm_num)

/-- Witness for C5 at opacity 1/2 on the 100×100 test mark (alpha 255
everywhere): every output alpha sample is floor(255·(1/2)) = 127. -/
theorem C5_alpha_modulator_witness :
    (∀ x y : ℤ,
      ((applyOpacity testMark (1 / 2)).pix x y).a = ((⌊(testMark.pix x y).a * (1 / 2 : ℚ)⌋ : ℤ) : ℚ)) ∧
    ((applyOpacity testMark (1 / 2)).pix 0 0).a = 127 := by
  have h := C5_alpha_modulator testMark (1 / 2) (by norm_num) (by norm_num)
    (fun _ _ => ⟨255, by norm_num [testMark]⟩)
  refine ⟨fun x y => (h.2.2.1 x y).2.2.2, ?_⟩
  rw [(h.2.2.1 0 0).2.2.2]
  norm_num [testMark]

/-- C2: in SINGLE mode the Positioner maps each position spec to the table
offset — UPPER_LEFT (m,m); UPPER_RIGHT (W−Mw−m, m); LOWER_LEFT (m, H−Mh−m);
MIDDLE ((W−Mw)/2, (H−Mh)/2) with (floor) integer division; an explicit pair
verbatim with no margin; LOWER_RIGHT or any unrecognized string
(W−Mw−m, H−Mh−m) — and negative offsets are accepted: a valid SINGLE-mode
configuration with decodable inputs always produces an output image. -/
theorem C2_positioner (W H Mw Mh : ℕ) (m : ℤ) (hm : 0 ≤ m) (px py : ℤ) (s : String)
    (hs : s ∉ ["UPPER_LEFT", "UPPER_RIGHT", "LOWER_LEFT", "MIDDLE"]) :
    positioner W H Mw Mh m (Sum.inl "UPPER_LEFT") = (m, m) ∧
    positioner W H Mw Mh m (Sum.inl "UPPER_RIGHT") = ((W : ℤ) - Mw - m, m) ∧
    positioner W H Mw Mh m (Sum.inl "LOWER_LEFT") = (m, (H : ℤ) - Mh - m) ∧
    positioner W H Mw Mh m (Sum.inl "MIDDLE") =
      (Int.fdiv ((W : ℤ) - Mw) 2, Int.fdiv ((H : ℤ) - Mh) 2) ∧
    positioner W H Mw Mh m (Sum.inr (px, py)) = (px, py) ∧
    positioner W H Mw Mh m (Sum.inl s) = ((W : ℤ) - Mw - m, (H : ℤ) - Mh - m) ∧
    (∀ (cfg : Config) (decode : String → Option Raster) (fuel : ℕ) (original mark : Raster),
      validate cfg = none → cfg.mode = "SINGLE" →
      decode cfg.input_path = some original → decode cfg.watermark_path = some mark →
      mark.width ≠ 0 → mark.height ≠ 0 →
      ∃ out, (add_watermark cfg decode fuel).outcome = AddOutcome.ok out) := by
  simp only [List.mem_cons, List.not_mem_nil, or_false, not_or] at hs
  obtain ⟨hs1, hs2, hs3, hs4⟩ := hs
  refine ⟨?_, ?_, ?_, ?_, ?_, ?_, ?_⟩
  · simp [positioner, hm]
  · simp [positioner, hm]
  · simp [positioner, hm]
  · simp [positioner, hm]
  · simp [positioner, hm]
  · simp [positioner, hm, hs1, hs2, hs3, hs4]
  · intro cfg decode fuel original mark hv hmode h2 h3 h4 h5
    have h45 : ¬(mark.width = 0 ∨ mark.height = 0) := by
      rintro (h | h) <;> [exact h4 h; exact h5 h]
    have hm' : cfg.mode ≠ "TILE" := by rw [hmode]; decide
    rw [add_watermark_single cfg decode fuel original mark hv h2 h3 h45 hm']
    exact ⟨_, rfl⟩

/-- Witness for C2: concrete anchors on a 10×10 canvas with a 3×3 mark and
margin 2, and acceptance of a negative offset — a 100×100 mark on the 5×5 tiny
canvas at LOWER_RIGHT with margin 20 yields offset (−115, −115) and the
operation still returns an output image. -/
theorem C2_positioner_witness :
    positioner 10 10 3 3 2 (Sum.inl "UPPER_LEFT") = (2, 2) ∧
    positioner 10 10 3 3 2 (Sum.inr (5, 7)) = (5, 7) ∧
    positioner 10 10 3 3 2 (Sum.inl "LOWER_RIGHT") = (5, 5) ∧
    positioner 5 5 100 100 20 (Sum.inl "LOWER_RIGHT") = (-115, -115) ∧
    ∃ out,
      (add_watermark
        ⟨"tiny.png", "mark.png", "out/tiny_watermarked.png", 20, Sum.inl "LOWER_RIGHT",
         1 / 2, 1 / 10, "LINEAR", "SINGLE", 10⟩ testDecode 0).outcome = AddOutcome.ok out := by
  have h := C2_positioner 10 10 3 3 2 (by norm_num) 5 7 "LOWER_RIGHT" (by decide)
  have h' := C2_positioner 5 5 100 100 20 (by norm_num) 5 7 "LOWER_RIGHT" (by decide)
  refine ⟨h.1, h.2.2.2.2.1, ?_, ?_, ?_⟩
  · rw [h.2.2.2.2.2.1]
    norm_num
  · rw [h'.2.2.2.2.2.1]
    norm_num
  · have hval : validate
        (⟨"tiny.png", "mark.png", "out/tiny_watermarked.png", 20, Sum.inl "LOWER_RIGHT",
          1 / 2, 1 / 10, "LINEAR", "SINGLE", 10⟩ : Config) = none := by
      apply validate_none_of <;> first | decide | norm_num
    exact h.2.2.2.2.2.2 _ testDecode 0 tinyCanvas testMark hval rfl (by simp [testDecode])
      (by simp [testDecode]) (by norm_num [testMark]) (by norm_num [testMark])

/-- C4: in TILE mode with positive steps, the stamp offsets are exactly the
(c·stepX, r·stepY) inside the canvas whose cell indices satisfy (r+c) even
(checkerboard), and in the 400×400 canvas, mark 50×50, padding 10 example
(stepX = stepY = 50+10 = 60) cell (0,0) is filled, (0,1) and (1,0) are
skipped, (1,1) is filled. -/
theorem C4_tile_checkerboard (W H xstep ystep : ℤ) (fuel : ℕ)
    (hW : 0 ≤ W) (hH : 0 ≤ H) (hx : 0 < xstep) (hy : 0 < ystep)
    (hfuel : H + W < (fuel : ℤ)) :
    (∃ L, tileOffsets fuel W H xstep ystep = some L ∧
      ∀ a b : ℤ, (a, b) ∈ L ↔ ∃ r c : ℕ, a = (c : ℤ) * xstep ∧ b = (r : ℤ) * ystep ∧
        a < W ∧ b < H ∧ (r + c) % 2 = 0) ∧
    (memTile 801 400 400 (50 + 10) (50 + 10) (0, 0) = true ∧
     memTile 801 400 400 (50 + 10) (50 + 10) (60, 0) = false ∧
     memTile 801 400 400 (50 + 10) (50 + 10) (0, 60) = false ∧
     memTile 801 400 400 (50 + 10) (50 + 10) (60, 60) = true) := by
  constructor
  · have hf0 : 0 < fuel := by omega
    obtain ⟨L, hL, hmem⟩ :=
      tileLoop_spec W H xstep ystep hx hy hW fuel 0 0 (by omega) hf0
    refine ⟨L, hL, ?_⟩
    intro a b
    rw [hmem a b]
    constructor
    · rintro ⟨r, k, rfl, hbh, rfl, haw, hpar⟩
      exact ⟨r, k, rfl, by ring, haw, hbh, by omega⟩
    · rintro ⟨r, c, rfl, rfl, haw, hbh, hpar⟩
      exact ⟨r, c, by ring, hbh, rfl, haw, by omega⟩
  · exact ⟨by decide, by decide, by decide, by decide⟩

/-- Witness for C4 at the spec example geometry: canvas 400×400, steps 60×60,
fuel 801. -/
theorem C4_tile_checkerboard_witness :
    (0 : ℤ) ≤ 400 ∧ (0 : ℤ) < 60 ∧ (400 : ℤ) + 400 < ((801 : ℕ) : ℤ) ∧
    ∃ L, tileOffsets 801 400 400 60 60 = some L ∧
      ∀ a b : ℤ, (a, b) ∈ L ↔ ∃ r c : ℕ, a = (c : ℤ) * 60 ∧ b = (r : ℤ) * 60 ∧
        a < 400 ∧ b < 400 ∧ (r + c) % 2 = 0 :=
  ⟨by norm_num, by norm_num, by norm_num,
   (C4_tile_checkerboard 400 400 60 60 801 (by norm_num) (by norm_num) (by norm_num)
     (by norm_num) (by norm_num)).1⟩

/-- C3 (code bug): with a degenerate computed mark size and tile_padding 0 the
tile steps are 0 and the source while loops never terminate — for every fuel
the TILE branch is still running (modelled as the `hang` outcome), no tiles
are emitted, and no output is written; the claim (and the spec) say zero tiles
are emitted and the operation completes without failing. -/
theorem C3_degenerate_tile_step_diverges :
    ∀ fuel : ℕ,
      add_watermark degenerateTileConfig testDecode fuel =
        ⟨AddOutcome.hang, ["tiny.png", "mark.png"], none⟩ := by
  intro fuel
  have hval : validate degenerateTileConfig = none := by
    apply validate_none_of <;> first | decide | norm_num [degenerateTileConfig]
  have hns : newSize tinyCanvas.width tinyCanvas.height testMark.width testMark.height
      degenerateTileConfig.proportion degenerateTileConfig.type_of_rescaling = (0, 0) :=
    newSize_deg5
  rw [add_watermark_tile degenerateTileConfig testDecode fuel tinyCanvas testMark hval
    (by simp [testDecode, degenerateTileConfig]) (by simp [testDecode, degenerateTileConfig])
    (by norm_num [testMark]) rfl]
  rw [hns]
  rw [show tileOffsets fuel (tinyCanvas.width : ℤ) (tinyCanvas.height : ℤ)
      (tileSteps (0, 0) degenerateTileConfig.tile_padding).1
      (tileSteps (0, 0) degenerateTileConfig.tile_padding).2 = none from
    tileLoop_zero_step_none 5 5 (by norm_num) (by norm_num) fuel]
  rfl

/-- C6 counterexample: canvas 400×400, mark 100×100, proportion 1/1000,
LINEAR, TILE, tile_padding 10.  The computed new size is (0,0), so the resize
is skipped and the mark keeps its original 100×100 size — but the tiling step
is 0+10 = 10, not 100+10: the degenerate computed size, not the original mark
size, drives the tiling geometry.  The actually stamped offsets include
(20, 0), which is not an offset of the 110-step grid the claim predicts. -/
theorem C6_counterexample :
    newSize 400 400 100 100 (1 / 1000) "LINEAR" = (0, 0) ∧
    effectiveMark testMark (newSize 400 400 100 100 (1 / 1000) "LINEAR") = testMark ∧
    testMark.width = 100 ∧ testMark.height = 100 ∧
    tileSteps (newSize 400 400 100 100 (1 / 1000) "LINEAR") 10 = (10, 10) ∧
    (10 : ℤ) ≠ 100 + 10 ∧
    memTile 801 400 400 10 10 (20, 0) = true ∧
    memTile 801 400 400 (100 + 10) (100 + 10) (20, 0) = false := by
  refine ⟨newSize_deg400, ?_, rfl, rfl, ?_, by norm_num, by decide, by decide⟩
  · rw [newSize_deg400]
    unfold effectiveMark
    rw [if_neg]
    rintro ⟨ha, -⟩
    exact absurd ha (by norm_num)
  · rw [newSize_deg400]
    unfold tileSteps
    norm_num

/-- C6 as amended: when a computed dimension is ≤ 0 the resize is skipped and
the mark keeps its original size for stamping and SINGLE-mode placement, and
the SINGLE-mode operation succeeds; the TILE step, however, is computed from
the degenerate new size (see the counterexample), not from the original mark
size. -/
theorem C6_amended_degenerate_single (cfg : Config) (decode : String → Option Raster)
    (fuel : ℕ) (original mark : Raster)
    (h1 : validate cfg = none) (h2 : decode cfg.input_path = some original)
    (h3 : decode cfg.watermark_path = some mark)
    (h4 : mark.width ≠ 0) (h5 : mark.height ≠ 0)
    (hdeg : (newSize original.width original.height mark.width mark.height
        cfg.proportion cfg.type_of_rescaling).1 = 0 ∨
      (newSize original.width original.height mark.width mark.height
        cfg.proportion cfg.type_of_rescaling).2 = 0)
    (hmode : cfg.mode = "SINGLE") :
    effectiveMark mark (newSize original.width original.height mark.width mark.height
      cfg.proportion cfg.type_of_rescaling) = mark ∧
    (applyOpacity mark cfg.opacity).width = mark.width ∧
    (applyOpacity mark cfg.opacity).height = mark.height ∧
    add_watermark cfg decode fuel =
      ⟨AddOutcome.ok (alphaComposite original
          (paste (blank original.width original.height) (applyOpacity mark cfg.opacity)
            (positioner original.width original.height (applyOpacity mark cfg.opacity).width
              (applyOpacity mark cfg.opacity).height cfg.margin cfg.position))),
       [cfg.input_path, cfg.watermark_path], some cfg.output_dir⟩ := by
  have heff : effectiveMark mark (newSize original.width original.height mark.width mark.height
      cfg.proportion cfg.type_of_rescaling) = mark := by
    unfold effectiveMark
    rw [if_neg]
    rintro ⟨ha, hb⟩
    rcases hdeg with h | h <;> omega
  refine ⟨heff, applyOpacity_width _ _, applyOpacity_height _ _, ?_⟩
  have h45 : ¬(mark.width = 0 ∨ mark.height = 0) := by
    rintro (h | h) <;> [exact h4 h; exact h5 h]
  have hm' : cfg.mode ≠ "TILE" := by rw [hmode]; decide
  rw [add_watermark_single cfg decode fuel original mark h1 h2 h3 h45 hm', heff]

/-- Witness for the amended C6: the degenerate SINGLE configuration (canvas
400×400, mark 100×100, proportion 1/1000) skips the resize, keeps the mark at
100×100 and still produces an output image. -/
theorem C6_amended_witness :
    effectiveMark testMark (newSize testCanvas.width testCanvas.height testMark.width
      testMark.height degenerateSingleConfig.proportion
      degenerateSingleConfig.type_of_rescaling) = testMark ∧
    (add_watermark degenerateSingleConfig testDecode 0).outcome.isOk = true := by
  have hval : validate degenerateSingleConfig = none := by
    apply validate_none_of <;> first | decide | norm_num [degenerateSingleConfig]
  have hdeg : (newSize testCanvas.width testCanvas.height testMark.width testMark.height
      degenerateSingleConfig.proportion degenerateSingleConfig.type_of_rescaling).1 = 0 ∨
      (newSize testCanvas.width testCanvas.height testMark.width testMark.height
        degenerateSingleConfig.proportion degenerateSingleConfig.type_of_rescaling).2 = 0 := by
    left
    show (newSize 400 400 100 100 (1 / 1000) "LINEAR").1 = 0
    rw [newSize_deg400]
  have h := C6_amended_degenerate_single degenerateSingleConfig testDecode 0 testCanvas testMark
    hval (by simp [testDecode, degenerateSingleConfig])
    (by simp [testDecode, degenerateSingleConfig])
    (by norm_num [testMark]) (by norm_num [testMark]) hdeg rfl
  refine ⟨h.1, ?_⟩
  rw [h.2.2.2]
  rfl

/-- C7: any configuration with proportion outside (0,1], opacity outside
[0,1], negative margin or tilePadding, unrecognized scalingMode or
placementMode, malformed position, or a non-image file extension makes the
operation raise a configuration error before any image file is opened or
decoded, and no output is written. -/
theorem C7_config_validation (cfg : Config) (decode : String → Option Raster) (fuel : ℕ)
    (h : cfg.proportion ≤ 0 ∨ 1 < cfg.proportion ∨ cfg.opacity < 0 ∨ 1 < cfg.opacity ∨
      cfg.margin < 0 ∨ cfg.tile_padding < 0 ∨ cfg.type_of_rescaling ∉ ["LINEAR", "AREA"] ∨
      cfg.mode ∉ ["SINGLE", "TILE"] ∨ positionCheck cfg.position ≠ none ∨
      isImagePath cfg.input_path = false ∨ isImagePath cfg.watermark_path = false) :
    (∃ msg, (add_watermark cfg decode fuel).outcome = AddOutcome.configError msg) ∧
    (add_watermark cfg decode fuel).opened = [] ∧
    (add_watermark cfg decode fuel).written = none := by
  rcases hval : validate cfg with _ | e
  · exfalso
    obtain ⟨c1, c2, c3, c4, c5, c6, c7, c8, c9, c10, c11⟩ := validate_none cfg hval
    rcases h with h|h|h|h|h|h|h|h|h|h|h
    · exact absurd c1 (not_lt.mpr h)
    · exact absurd c2 (not_le.mpr h)
    · exact absurd c9 (not_le.mpr h)
    · exact absurd c10 (not_le.mpr h)
    · exact absurd c5 (not_le.mpr h)
    · exact absurd c11 (not_le.mpr h)
    · exact h c7
    · exact h c8
    · exact h c6
    · rw [c3] at h
      exact absurd h (by simp)
    · rw [c4] at h
      exact absurd h (by simp)
  · unfold add_watermark
    rw [hval]
    exact ⟨⟨e, rfl⟩, rfl, rfl⟩

/-- Witness for C7: proportion 2 is rejected before decoding, with no file
opened and no output written. -/
theorem C7_config_validation_witness :
    1 < badConfig.proportion ∧
    (∃ msg, (add_watermark badConfig testDecode 0).outcome = AddOutcome.configError msg) ∧
    (add_watermark badConfig testDecode 0).opened = [] ∧
    (add_watermark badConfig testDecode 0).written = none := by
  have h := C7_config_validation badConfig testDecode 0
    (Or.inr (Or.inl (by norm_num [badConfig])))
  exact ⟨by norm_num [badConfig], h.1, h.2.1, h.2.2⟩

/-- C9: compositing a fully opaque (alpha 255 everywhere), canvas-sized mark
stamped at offset (0,0) onto any canvas yields the mark pixel-for-pixel on
the canvas, under the spec compositing rule
out = overlayColor·overlayAlpha + canvasColor·(1−overlayAlpha),
outAlpha = overlayAlpha + canvasAlpha·(1−overlayAlpha) (alphas byte/255). -/
theorem C9_opaque_mark_compositing (canvas mark : Raster)
    (hw : mark.width = canvas.width) (hh : mark.height = canvas.height)
    (halpha : ∀ x y : ℤ, (mark.pix x y).a = 255) :
    (alphaComposite canvas (paste (blank canvas.width canvas.height) mark (0, 0))).width
      = canvas.width ∧
    (alphaComposite canvas (paste (blank canvas.width canvas.height) mark (0, 0))).height
      = canvas.height ∧
    ∀ x y : ℤ, 0 ≤ x → x < (canvas.width : ℤ) → 0 ≤ y → y < (canvas.height : ℤ) →
      (alphaComposite canvas (paste (blank canvas.width canvas.height) mark (0, 0))).pix x y
        = mark.pix x y := by
  refine ⟨rfl, rfl, ?_⟩
  intro x y hx hxW hy hyH
  have hxw' : (0 : ℤ) ≤ x ∧ x < 0 + (mark.width : ℤ) ∧ (0 : ℤ) ≤ y ∧ y < 0 + (mark.height : ℤ) := by
    refine ⟨hx, ?_, hy, ?_⟩
    · rw [hw]; omega
    · rw [hh]; omega
  show compositePixel ((paste (blank canvas.width canvas.height) mark (0, 0)).pix x y)
    (canvas.pix x y) = mark.pix x y
  unfold paste blank
  simp only []
  rw [if_pos hxw']
  rw [sub_zero, sub_zero]
  rcases hmk : mark.pix x y with ⟨mr, mg, mb, ma⟩
  have hma : ma = 255 := by
    have h255 := halpha x y
    rw [hmk] at h255
    simpa using h255
  subst hma
  unfold blend compositePixel transparent
  simp only []
  rcases canvas.pix x y with ⟨cr, cg, cb, ca⟩
  simp only [Pixel.mk.injEq]
  norm_num

/-- Witness for C9: the fully opaque 400×400 mark composited over the 400×400
test canvas reproduces the mark at pixel (7, 9). -/
theorem C9_opaque_mark_compositing_witness :
    (∀ x y : ℤ, (opaqueMark.pix x y).a = 255) ∧
    (alphaComposite testCanvas
        (paste (blank testCanvas.width testCanvas.height) opaqueMark (0, 0))).pix 7 9
      = opaqueMark.pix 7 9 := by
  have h := C9_opaque_mark_compositing testCanvas opaqueMark rfl rfl (fun _ _ => rfl)
  exact ⟨fun _ _ => rfl, h.2.2 7 9 (by norm_num) (by norm_num [testCanvas]) (by norm_num)
    (by norm_num [testCanvas])⟩

/-- C10: in TILE mode, two valid configurations differing only in margin and
position produce identical results — margin and position do not influence the
TILE pipeline beyond validation. -/
theorem C10_tile_ignores_margin_position (cfg : Config) (m : ℤ) (q : String ⊕ (ℤ × ℤ))
    (decode : String → Option Raster) (fuel : ℕ) (hmode : cfg.mode = "TILE")
    (h1 : validate cfg = none) (h2 : validate {cfg with margin := m, position := q} = none) :
    add_watermark {cfg with margin := m, position := q} decode fuel =
      add_watermark cfg decode fuel := by
  unfold add_watermark
  rw [h1, h2]
  simp [hmode]

/-- Witness for C10: a TILE configuration with margin 20 / LOWER_RIGHT and its
variant with margin 3 / explicit position (1, 2) validate and yield the same
result. -/
theorem C10_tile_ignores_margin_position_witness :
    validate
      (⟨"in.png", "mark.png", "out/in_watermarked.png", 20, Sum.inl "LOWER_RIGHT",
        1 / 2, 1 / 10, "LINEAR", "TILE", 10⟩ : Config) = none ∧
    validate
      (⟨"in.png", "mark.png", "out/in_watermarked.png", 3, Sum.inr (1, 2),
        1 / 2, 1 / 10, "LINEAR", "TILE", 10⟩ : Config) = none ∧
    add_watermark
      (⟨"in.png", "mark.png", "out/in_watermarked.png", 3, Sum.inr (1, 2),
        1 / 2, 1 / 10, "LINEAR", "TILE", 10⟩ : Config) testDecode 900 =
    add_watermark
      (⟨"in.png", "mark.png", "out/in_watermarked.png", 20, Sum.inl "LOWER_RIGHT",
        1 / 2, 1 / 10, "LINEAR", "TILE", 10⟩ : Config) testDecode 900 := by
  have hv1 : validate
      (⟨"in.png", "mark.png", "out/in_watermarked.png", 20, Sum.inl "LOWER_RIGHT",
        1 / 2, 1 / 10, "LINEAR", "TILE", 10⟩ : Config) = none := by
    apply validate_none_of <;> first | decide | norm_num
  have hv2 : validate
      (⟨"in.png", "mark.png", "out/in_watermarked.png", 3, Sum.inr (1, 2),
        1 / 2, 1 / 10, "LINEAR", "TILE", 10⟩ : Config) = none := by
    apply validate_none_of <;> first | decide | norm_num
  exact ⟨hv1, hv2,
    C10_tile_ignores_margin_position
      (⟨"in.png", "mark.png", "out/in_watermarked.png", 20, Sum.inl "LOWER_RIGHT",
        1 / 2, 1 / 10, "LINEAR", "TILE", 10⟩ : Config) 3 (Sum.inr (1, 2)) testDecode 900
      rfl hv1 hv2⟩

/-- C8 counterexample: two batch runs over the same two files, both completing
(every call returns normally), one with all decodes succeeding (0 failures,
2 successes) and one with every canvas decode failing (2 failures,
0 successes), end with the same fixed final console message — the final
report is independent of the success/failure tally, so no tally is
reported. -/
theorem C8_counterexample :
    (run_watermarker_dir true ["in.png", "tiny.png"] "mark.png" "out" "SINGLE" "LOWER_RIGHT"
        (1 / 10) 20 50 "LINEAR" (1 / 2) testDecode 0).map
      (fun r => (countFailures r.1, countSuccesses r.1, r.2)) =
      some (0, 2, some "Process successfully finished!") ∧
    (run_watermarker_dir true ["in.png", "tiny.png"] "mark.png" "out" "SINGLE" "LOWER_RIGHT"
        (1 / 10) 20 50 "LINEAR" (1 / 2) testDecodeMissing 0).map
      (fun r => (countFailures r.1, countSuccesses r.1, r.2)) =
      some (2, 0, some "Process successfully finished!") := by
  have hval1 : validate ⟨"in.png", "mark.png", outputFilename "out" "in.png", 20,
      Sum.inl "LOWER_RIGHT", 1 / 2, 1 / 10, "LINEAR", "SINGLE", 50⟩ = none := by
    apply validate_none_of <;> first | decide | norm_num
  have hval2 : validate ⟨"tiny.png", "mark.png", outputFilename "out" "tiny.png", 20,
      Sum.inl "LOWER_RIGHT", 1 / 2, 1 / 10, "LINEAR", "SINGLE", 50⟩ = none := by
    apply validate_none_of <;> first | decide | norm_num
  have r1 := add_watermark_single ⟨"in.png", "mark.png", outputFilename "out" "in.png", 20,
      Sum.inl "LOWER_RIGHT", 1 / 2, 1 / 10, "LINEAR", "SINGLE", 50⟩ testDecode 0
    testCanvas testMark hval1 (by simp [testDecode]) (by simp [testDecode])
    (by norm_num [testMark]) (by decide)
  have r2 := add_watermark_single ⟨"tiny.png", "mark.png", outputFilename "out" "tiny.png", 20,
      Sum.inl "LOWER_RIGHT", 1 / 2, 1 / 10, "LINEAR", "SINGLE", 50⟩ testDecode 0
    tinyCanvas testMark hval2 (by simp [testDecode]) (by simp [testDecode])
    (by norm_num [testMark]) (by decide)
  have r1m := add_watermark_input_decode_error ⟨"in.png", "mark.png",
      outputFilename "out" "in.png", 20, Sum.inl "LOWER_RIGHT", 1 / 2, 1 / 10, "LINEAR",
      "SINGLE", 50⟩ testDecodeMissing 0 hval1 (by simp [testDecodeMissing])
  have r2m := add_watermark_input_decode_error ⟨"tiny.png", "mark.png",
      outputFilename "out" "tiny.png", 20, Sum.inl "LOWER_RIGHT", 1 / 2, 1 / 10, "LINEAR",
      "SINGLE", 50⟩ testDecodeMissing 0 hval2 (by simp [testDecodeMissing])
  have hfil : (["in.png", "tiny.png"].filter (fun f => isImagePath f))
      = ["in.png", "tiny.png"] := by decide
  constructor
  · unfold run_watermarker_dir
    rw [if_neg (by simp)]
    simp only [hfil]
    rw [if_neg (by simp)]
    simp only [batchLoop, r1, r2]
    simp [countFailures, countSuccesses, AddOutcome.isOk]
  · unfold run_watermarker_dir
    rw [if_neg (by simp)]
    simp only [hfil]
    rw [if_neg (by simp)]
    simp only [batchLoop, r1m, r2m]
    simp [countFailures, countSuccesses, AddOutcome.isOk]

/-- C8 as amended: in batch mode a decode failure on one file is caught
inside that single operation, which returns normally, so the remaining files
are still processed; when the operation of every listed file returns normally the
orchestrator processes all of them in order and ends with the fixed message
of line 246 — a completion message, not a success/failure tally. -/
theorem C8_amended_batch_continuation (files : List String)
    (wm outdir mode pstring : String) (p o : ℚ) (m tp : ℤ) (resc : String)
    (decode : String → Option Raster) (fuel : ℕ)
    (hne : files.filter (fun f => isImagePath f) ≠ [])
    (hret : ∀ f ∈ files.filter (fun f => isImagePath f),
      (add_watermark ⟨f, wm, outputFilename outdir f, m, Sum.inl pstring, o, p, resc, mode, tp⟩
        decode fuel).outcome.returnsNormally = true) :
    run_watermarker_dir true files wm outdir mode pstring p m tp resc o decode fuel =
      some ((files.filter (fun f => isImagePath f)).map (fun f =>
        add_watermark ⟨f, wm, outputFilename outdir f, m, Sum.inl pstring, o, p, resc, mode, tp⟩
          decode fuel), some "Process successfully finished!") ∧
    (∀ cfg : Config, validate cfg = none → decode cfg.input_path = none →
      (add_watermark cfg decode fuel).outcome = AddOutcome.caught "Error opening images" ∧
      (add_watermark cfg decode fuel).outcome.returnsNormally = true) := by
  constructor
  · unfold run_watermarker_dir
    rw [if_neg (by simp)]
    rw [if_neg (by simpa using hne)]
    rw [batchLoop_complete _ decode fuel _ hret]
  · intro cfg hv hd
    rw [add_watermark_input_decode_error cfg decode fuel hv hd]
    exact ⟨rfl, rfl⟩

/-- Witness for the amended C8: a two-file listing with an invalid extension
filtered out; with the canvas decode failing the operation returns the caught
decode error (it returns normally rather than propagating), and the batch
still ends with the fixed completion message. -/
theorem C8_amended_batch_continuation_witness :
    (["in.png", "doc.txt"].filter (fun f => isImagePath f) ≠ []) ∧
    (run_watermarker_dir true ["in.png", "doc.txt"] "mark.png" "out" "SINGLE" "LOWER_RIGHT"
        (1 / 10) 20 50 "LINEAR" (1 / 2) testDecodeMissing 0).map Prod.snd =
      some (some "Process successfully finished!") ∧
    (add_watermark ⟨"in.png", "mark.png", outputFilename "out" "in.png", 20,
        Sum.inl "LOWER_RIGHT", 1 / 2, 1 / 10, "LINEAR", "SINGLE", 50⟩
      testDecodeMissing 0).outcome = AddOutcome.caught "Error opening images" := by
  have hval : validate ⟨"in.png", "mark.png", outputFilename "out" "in.png", 20,
      Sum.inl "LOWER_RIGHT", 1 / 2, 1 / 10, "LINEAR", "SINGLE", 50⟩ = none := by
    apply validate_none_of <;> first | decide | norm_num
  have hcaught : (add_watermark ⟨"in.png", "mark.png", outputFilename "out" "in.png", 20,
      Sum.inl "LOWER_RIGHT", 1 / 2, 1 / 10, "LINEAR", "SINGLE", 50⟩
      testDecodeMissing 0).outcome = AddOutcome.caught "Error opening images" := by
    rw [add_watermark_input_decode_error _ testDecodeMissing 0 hval (by simp [testDecodeMissing])]
  have hret : ∀ f ∈ ["in.png", "doc.txt"].filter (fun f => isImagePath f),
      (add_watermark ⟨f, "mark.png", outputFilename "out" f, 20, Sum.inl "LOWER_RIGHT",
        1 / 2, 1 / 10, "LINEAR", "SINGLE", 50⟩
        testDecodeMissing 0).outcome.returnsNormally = true := by
    intro f hf
    rw [show (["in.png", "doc.txt"].filter (fun f => isImagePath f)) = ["in.png"] from by decide]
      at hf
    simp only [List.mem_singleton] at hf
    subst hf
    rw [hcaught]
    rfl
  have h := C8_amended_batch_continuation ["in.png", "doc.txt"] "mark.png" "out" "SINGLE"
    "LOWER_RIGHT" (1 / 10) (1 / 2) 20 50 "LINEAR" testDecodeMissing 0 (by decide) hret
  refine ⟨by decide, ?_, hcaught⟩
  rw [h.1]
  rfl

end Watermarker
